import Mathlib

/-!
Shallow embedding of the CodeMate-AI protocol core: the versioned message
envelope codec (`ProtocolHandler` in `src/cmate-front/src/communication`),
the command registry and its file-operations handler
(`src/cmate-front/src/commands`), the sidebar state manager
(`StateManager`), and the reconnecting WebSocket transport
(`WebSocketClient`).  JavaScript runtime values exchanged on the wire are
modelled by an explicit `Json` type; a synchronous JavaScript function that
can throw is modelled as returning `Except String α` where the `.error`
carries the thrown error message; an `async` function's returned promise is
modelled the same way (`.error` = rejection).
-/

namespace CodeMateSpec

/-- JavaScript/JSON values as they appear after `JSON.parse`: null, booleans,
numbers (timestamps are integral milliseconds, so numbers are modelled as
`Int`), strings, arrays and objects (association lists in key order; objects
produced by `JSON.parse` have unique keys). -/
inductive Json where
  | null : Json
  | bool (b : Bool) : Json
  | num (n : Int) : Json
  | str (s : String) : Json
  | arr (elems : List Json) : Json
  | obj (fields : List (String × Json)) : Json

/-- First binding of a key in an object field list. -/
def lookupField : List (String × Json) → String → Option Json
  | [], _ => none
  | (k, v) :: rest, key => if k = key then some v else lookupField rest key

/-- Property read `value[key]` on a non-null base: `none` models the
JavaScript `undefined` result for a missing key or a non-object base. -/
def jsGetField : Json → String → Option Json
  | .obj fields, key => lookupField fields key
  | _, _ => none

/-- JavaScript truthiness of a runtime value. -/
def jsTruthy : Json → Bool
  | .null => false
  | .bool b => b
  | .num n => n != 0
  | .str s => s != ""
  | .arr _ => true
  | .obj _ => true

/-- Truthiness of a property read result (`undefined` is falsy). -/
def optTruthy : Option Json → Bool
  | none => false
  | some v => jsTruthy v

/-- Whether a property read result satisfies `typeof x === 'number'`. -/
def optIsNumber : Option Json → Bool
  | some (.num _) => true
  | _ => false

/-- Whether `typeof v === 'object'` holds (arrays and `null` included). -/
def jsTypeofIsObject : Json → Bool
  | .null => true
  | .arr _ => true
  | .obj _ => true
  | _ => false

/-- Strict equality test `x === '1.0'` on a property read result. -/
def optIsVersion10 : Option Json → Bool
  | some (.str s) => s = "1.0"
  | _ => false

/-- The seven enumerated message kinds of the `MessageType` union in
`src/cmate-front/src/communication/types.ts`. -/
def messageTypes : List String :=
  ["request", "response", "notification", "ack", "error", "ping", "pong"]

/-- Embeds `ProtocolHandler.isValidMessage`: the conjunction
`msg && typeof msg === 'object' && msg.version === '1.0' && msg.type &&
msg.id && typeof msg.timestamp === 'number' && msg.channel`. -/
def isValidMessage (msg : Json) : Bool :=
  jsTruthy msg && jsTypeofIsObject msg &&
  optIsVersion10 (jsGetField msg "version") &&
  optTruthy (jsGetField msg "type") &&
  optTruthy (jsGetField msg "id") &&
  optIsNumber (jsGetField msg "timestamp") &&
  optTruthy (jsGetField msg "channel")

/-- Embeds `ProtocolHandler.validateAndNormalize`: throws an `Error` with
this fixed message when `isValidMessage` fails, otherwise returns the parsed
object unchanged (the TypeScript cast does not transform the value). -/
def validateAndNormalize (msg : Json) : Except String Json :=
  if isValidMessage msg then .ok msg
  else .error "Invalid message format: missing required fields or invalid version"

/-- Failure of `ProtocolHandler.parseMessage`.  In the source both failures
surface as a thrown `Error` whose message is built by the single catch
block; the constructor records which internal throw site fired:
`parseError` for a `SyntaxError` raised by the host builtin `JSON.parse`,
`validationError` for the envelope-invariant failure raised by
`validateAndNormalize`. -/
inductive ProtocolFailure where
  | parseError (message : String)
  | validationError (message : String)
deriving DecidableEq

/-- Embeds `ProtocolHandler.parseMessage`.  The host builtin `JSON.parse` is
not repository code; its outcome on the input text is taken as the argument:
`.error m` is a `SyntaxError` with message `m` (text that is not valid
JSON), `.ok j` is the parsed value `j`.  Both the syntax failure and the
validation failure are rethrown by the catch block with the
`Failed to parse message: ` prefix. -/
def parseMessage (data : Except String Json) : Except ProtocolFailure Json :=
  match data with
  | .error synMsg => .error (.parseError ("Failed to parse message: " ++ synMsg))
  | .ok parsed =>
    match validateAndNormalize parsed with
    | .ok msg => .ok msg
    | .error m => .error (.validationError ("Failed to parse message: " ++ m))

/-- A typed `MessageEnvelope` value held by the sender (the interface in
`src/cmate-front/src/communication/types.ts`): `version` is the protocol
version string, `payload` any wire-representable value, `requiresACK`
an optional boolean (`none` = the field is absent). -/
structure MessageEnvelope where
  version : String
  type : String
  id : String
  timestamp : Int
  channel : String
  payload : Json
  requiresACK : Option Bool

/-- Embeds `ProtocolHandler.serializeMessage`, i.e. `JSON.stringify(msg)`.
The wire text is represented by the JSON value it denotes (`JSON.parse` of
`JSON.stringify` is the identity on JSON-representable values, a guarantee
of the host, not of repository code); `JSON.stringify` emits the fields in
insertion order and omits an absent `requiresACK`. -/
def serializeMessage (msg : MessageEnvelope) : Json :=
  .obj ([("version", .str msg.version), ("type", .str msg.type),
         ("id", .str msg.id), ("timestamp", .num msg.timestamp),
         ("channel", .str msg.channel), ("payload", msg.payload)] ++
        (match msg.requiresACK with
         | some b => [("requiresACK", .bool b)]
         | none => []))

/-- Result of a handler's `validate` (the `CommandValidation` interface):
`errors` is `none` when the `errors?` field is absent. -/
structure CommandValidation where
  valid : Bool
  errors : Option (List String)
deriving DecidableEq

/-- The `OperationRequest` interface of `src/unnamed/part_002`
(`commands/types.ts`); `category` is the enum's string value and
`payload` the command-specific object. -/
structure OperationRequest where
  id : String
  timestamp : Int
  commandId : String
  category : String
  selectedAI : String
  selectedModel : String
  payload : Json
  workspaceRoot : String
  filePath : Option String

/-- The `details` object the registry attaches to a validation failure:
`{ errors: validation.errors }` (the inner list may be absent). -/
structure ErrorDetails where
  errors : Option (List String)
deriving DecidableEq

/-- The `error` member of an `OperationResponse`. -/
structure ErrorInfo where
  code : String
  message : String
  details : Option ErrorDetails
deriving DecidableEq

/-- The `OperationResponse` interface; `metadata` is a JavaScript record,
modelled as an association list in key order. -/
structure OperationResponse where
  id : String
  status : String
  data : Option Json
  error : Option ErrorInfo
  metadata : Option (List (String × Json))
  timestamp : Int

/-- Object-literal update `{ ...kvs, key: v }`: overwrites the binding in
place when the key exists, otherwise appends it. -/
def recordSet (kvs : List (String × Json)) (key : String) (v : Json) :
    List (String × Json) :=
  if kvs.any (fun kv => kv.1 = key) then
    kvs.map (fun kv => if kv.1 = key then (key, v) else kv)
  else kvs ++ [(key, v)]

/-- The `CommandHandler` capability set.  A JavaScript call that can throw
(or an async call whose promise can reject) is modelled as `Except String`,
the `.error` carrying the thrown error's message. -/
structure CommandHandler where
  validate : Json → Except String CommandValidation
  execute : OperationRequest → Except String OperationResponse
  getSchema : Json

/-- A `CommandDescriptor` registry entry (optional fields that no claim
touches are omitted; `category` is the enum's string value). -/
structure CommandDescriptor where
  id : String
  title : String
  category : String
  description : String
  handler : CommandHandler
  requiresFile : Bool

/-- The registry's `Map` from command id to descriptor, as an association
list in insertion order (a JavaScript `Map` iterates in insertion order and
`set` on an existing key keeps its position). -/
def CommandMap := List (String × CommandDescriptor)

/-- Embeds `this.commands.get(id)`. -/
def lookupCommand : List (String × CommandDescriptor) → String → Option CommandDescriptor
  | [], _ => none
  | (k, d) :: rest, key => if k = key then some d else lookupCommand rest key

/-- Embeds `CommandRegistry.register`: `Map.set`, overwriting in place. -/
def registerCommand (cmds : List (String × CommandDescriptor))
    (d : CommandDescriptor) : List (String × CommandDescriptor) :=
  if cmds.any (fun kv => kv.1 = d.id) then
    cmds.map (fun kv => if kv.1 = d.id then (d.id, d) else kv)
  else cmds ++ [(d.id, d)]

/-- The `COMMAND_NOT_FOUND` response literal of `CommandRegistry.execute`
(`t0` = `Date.now()` there); its message enumerates the known command
ids. -/
def notFoundResponse (commands : List (String × CommandDescriptor))
    (request : OperationRequest) (t0 : Int) : OperationResponse :=
  { id := request.id, status := "error", data := none,
    error := some { code := "COMMAND_NOT_FOUND",
                    message := "Command \"" ++ request.commandId ++
                      "\" not found. Available commands: " ++
                      String.intercalate ", " (commands.map (fun kv => kv.1)),
                    details := none },
    metadata := none, timestamp := t0 }

/-- The `VALIDATION_ERROR` response literal of `CommandRegistry.execute`,
carrying the validator's error list in `details.errors`. -/
def validationFailedResponse (request : OperationRequest)
    (errors : Option (List String)) (t0 : Int) : OperationResponse :=
  { id := request.id, status := "error", data := none,
    error := some { code := "VALIDATION_ERROR",
                    message := "Payload validation failed",
                    details := some { errors := errors } },
    metadata := none, timestamp := t0 }

/-- The `EXECUTION_ERROR` response literal of the registry's catch block
(`t1` = `Date.now()` in the catch). -/
def executionErrorResponse (request : OperationRequest) (e : String)
    (t1 : Int) : OperationResponse :=
  { id := request.id, status := "error", data := none,
    error := some { code := "EXECUTION_ERROR",
                    message := "Command execution failed: " ++ e,
                    details := none },
    metadata := none, timestamp := t1 }

/-- Embeds the body of `CommandRegistry.execute` after the descriptor has
been found.  `t0` is `Date.now()` at entry (also the recorded `startTime`),
`t1` is `Date.now()` after the handler finished (so the measured duration
is `t1 - t0`).  The call to `descriptor.handler.validate` sits OUTSIDE the
`try` block in the source, so an exception it throws propagates out of
`execute` (first match arm); only the handler's `execute` is guarded. -/
def dispatchCommand (descriptor : CommandDescriptor) (request : OperationRequest)
    (t0 t1 : Int) : Except String OperationResponse :=
  match descriptor.handler.validate request.payload with
  | .error e => .error e
  | .ok validation =>
    if !validation.valid then
      .ok (validationFailedResponse request validation.errors t0)
    else
      match descriptor.handler.execute request with
      | .ok response =>
          .ok { response with
                metadata := some (recordSet (response.metadata.getD [])
                                    "duration" (.num (t1 - t0))) }
      | .error e => .ok (executionErrorResponse request e t1)

/-- Embeds `CommandRegistry.execute`: looks up the command id, answers
`COMMAND_NOT_FOUND` (enumerating the known ids) when absent, otherwise
proceeds as `dispatchCommand`. -/
def registryExecute (commands : List (String × CommandDescriptor))
    (request : OperationRequest) (t0 t1 : Int) : Except String OperationResponse :=
  match lookupCommand commands request.commandId with
  | none => .ok (notFoundResponse commands request t0)
  | some descriptor => dispatchCommand descriptor request t0 t1

/-- Whether the first character list is a leading segment of the second. -/
def charsLeading : List Char → List Char → Bool
  | [], _ => true
  | _ :: _, [] => false
  | a :: as, b :: bs => a = b && charsLeading as bs

/-- Whether the pattern occurs as a contiguous run of the character list. -/
def charsOccur (pat : List Char) : List Char → Bool
  | [] => pat.isEmpty
  | b :: bs => charsLeading pat (b :: bs) || charsOccur pat bs

/-- Substring test `s.includes(pat)` on JavaScript strings. -/
def strHas (s pat : String) : Bool := charsOccur pat.toList s.toList

mutual

/-- String coercion performed by a template literal (`String(v)`).  Array
elements are joined with commas, nested `null` joining to the empty string;
plain objects display as `[object Object]`. -/
def jsTemplateString : Json → String
  | .null => "null"
  | .bool b => if b then "true" else "false"
  | .num n => toString n
  | .str s => s
  | .arr elems => jsTemplateStrings elems
  | .obj _ => "[object Object]"

/-- Comma join used by `String(array)`. -/
def jsTemplateStrings : List Json → String
  | [] => ""
  | [.null] => ""
  | [x] => jsTemplateString x
  | .null :: rest => "," ++ jsTemplateStrings rest
  | x :: rest => jsTemplateString x ++ "," ++ jsTemplateStrings rest

end

/-- Template-literal display of a property read result (`undefined` when
the property is absent). -/
def jsOptTemplate : Option Json → String
  | none => "undefined"
  | some v => jsTemplateString v

/-- Strict-equality membership `values.includes(x)` where `values` are
string literals: only an equal string matches. -/
def strIncludesOpt (values : List String) (v : Option Json) : Bool :=
  match v with
  | some (.str s) => values.contains s
  | _ => false

/-- Property read `base[key]` including the JavaScript throw on a null base
(`TypeError`); reads on other non-object bases yield `undefined`
(`none`).  An `undefined` base behaves like `null`; it has no `Json`
representative, `null` standing in for both. -/
def jsMember (base : Json) (key : String) : Except String (Option Json) :=
  match base with
  | .null => .error ("TypeError: Cannot read properties of null (reading " ++ key ++ ")")
  | _ => .ok (jsGetField base key)

/-- Embeds `validators.validateFilePath` (`src/unnamed/part_003`,
`utils/validators.ts`) for a string argument, the type its TypeScript
signature declares: rejects the empty path, `..` traversal, absolute
paths and embedded null characters, in source order. -/
def validateFilePath (path : String) : CommandValidation :=
  let errors :=
    (if path = "" then ["Path cannot be empty"] else []) ++
    (if strHas path ".." then ["Path traversal (../) is not allowed"] else []) ++
    (if path.startsWith "/" then ["Absolute paths are not allowed"] else []) ++
    (if path ≠ "" ∧ path.contains (Char.ofNat 0) then
       ["Path contains invalid characters"] else [])
  { valid := errors.isEmpty,
    errors := if errors.isEmpty then none else some errors }

/-- Embeds `FileOpsHandler.validate`.  Every property read goes through
`jsMember`, so a `null` payload throws a `TypeError` at the very first
read (`payload.type`), exactly as the JavaScript does; a truthy non-string
path value throws at its first string-method call inside
`validateFilePath` (the model raises the `TypeError` at the branch
entry).  Error messages and their accumulation order follow the source. -/
def fileOpsValidate (payload : Json) : Except String CommandValidation := do
  let ptype ← jsMember payload "type"
  let typeErrors :=
    if !optTruthy ptype then ["Operation type is required"]
    else if !strIncludesOpt ["create", "delete", "modify", "copy", "move", "rename"] ptype then
      ["Invalid operation type: " ++ jsOptTemplate ptype]
    else []
  let target ← jsMember payload "targetPath"
  let targetErrors ←
    if !optTruthy target then pure ["Target path is required"]
    else
      match target with
      | some (.str s) => pure ((validateFilePath s).errors.getD [])
      | _ => Except.error "TypeError: path.includes is not a function"
  let sourceErrors ←
    if strIncludesOpt ["copy", "move", "rename"] ptype then do
      let source ← jsMember payload "sourcePath"
      if !optTruthy source then
        pure ["Source path is required for " ++ jsOptTemplate ptype ++ " operation"]
      else
        match source with
        | some (.str s) => pure ((validateFilePath s).errors.getD [])
        | _ => Except.error "TypeError: path.includes is not a function"
    else pure []
  let contentErrors ←
    if strIncludesOpt ["create", "modify"] ptype then do
      let content ← jsMember payload "content"
      pure (match content with
            | some (.str _) => []
            | _ => ["Content must be a string"])
    else pure []
  let errors := typeErrors ++ targetErrors ++ sourceErrors ++ contentErrors
  pure { valid := errors.isEmpty,
         errors := if errors.isEmpty then none else some errors }

/-- Embeds `FileOpsHandler.execute` with `Date.now()` at `t`: reads the
operation's fields off the payload and resolves with a success response
(the placeholder body queues the work for the backend); the reads on a
`null` payload throw inside the handler's own `try`, producing the
`FILE_OP_ERROR` response rather than a rejection.  An absent field
renders as `null` inside `data` (standing in for `undefined`). -/
def fileOpsExecute (t : Int) (request : OperationRequest) :
    Except String OperationResponse :=
  match jsMember request.payload "type", jsMember request.payload "targetPath" with
  | .ok ptype, .ok target =>
      .ok { id := request.id, status := "success",
            data := some (.obj [("type", ptype.getD .null), ("path", target.getD .null),
                     ("message", .str ("File operation \"" ++ jsOptTemplate ptype ++
                       "\" queued for execution"))]),
            error := none, metadata := none, timestamp := t }
  | .error e, _ | _, .error e =>
      .ok { id := request.id, status := "error", data := none,
            error := some { code := "FILE_OP_ERROR", message := e, details := none },
            metadata := none, timestamp := t }

/-- Embeds `FileOpsHandler.getSchema` (structure only; descriptions kept). -/
def fileOpsSchema : Json :=
  .obj [("type", .obj [("enum", .arr ((["create", "delete", "modify", "copy",
           "move", "rename"] : List String).map Json.str)),
          ("description", .str "Type of file operation")]),
        ("targetPath", .obj [("type", .str "string"),
          ("description", .str "Path to target file")]),
        ("sourcePath", .obj [("type", .str "string"),
          ("description", .str "Path to source file (for copy, move, rename)")]),
        ("content", .obj [("type", .str "string"),
          ("description", .str "File content (for create, modify)")]),
        ("options", .obj [("type", .str "object")])]

/-- The shared `FileOpsHandler` instance, with the handler's own
`Date.now()` reading `t`. -/
def fileOpsHandler (t : Int) : CommandHandler :=
  { validate := fileOpsValidate, execute := fileOpsExecute t,
    getSchema := fileOpsSchema }

/-- The `file.create` descriptor registered by `registerAllHandlers`
(`src/cmate-front/src/commands/handlers/index.ts`). -/
def fileCreateDescriptor (t : Int) : CommandDescriptor :=
  { id := "file.create", title := "Create File", category := "fileOps",
    description := "Create a new file in the workspace",
    handler := fileOpsHandler t, requiresFile := false }

/-- A `PendingOperation` of the sidebar state (`sidebar/types.ts`). -/
structure PendingOperation where
  id : String
  commandId : String
  status : String
  progress : Int
  startTime : Int
  endTime : Option Int
  error : Option String
deriving DecidableEq

/-- A `HistoryEntry` of the sidebar state. -/
structure HistoryEntry where
  id : String
  timestamp : Int
  commandId : String
  ai : String
  model : String
  status : String
  duration : Int
  message : Option String
deriving DecidableEq

/-- The argument of `addToHistory`: a `HistoryEntry` without its `id`
(`Omit<HistoryEntry, 'id'>`). -/
structure HistoryEntryData where
  timestamp : Int
  commandId : String
  ai : String
  model : String
  status : String
  duration : Int
  message : Option String
deriving DecidableEq

/-- The `SidebarState` snapshot held by `StateManager`
(`src/unnamed/part_001`), with the nested lists as values. -/
structure SidebarState where
  selectedAI : Option String
  selectedModel : Option String
  selectedFile : Option String
  selectedOperation : Option String
  isLoading : Bool
  operations : List PendingOperation
  history : List HistoryEntry
  uiMode : String
deriving DecidableEq

/-- Modelled from the spec: `generateUUID` (`utils/uuid.ts`, imported by the
state manager but not present under the sources) — "generates an id", a
fresh unique identifier per call; modelled as a counter-indexed string, the
manager threading the counter. -/
def generateUUID (n : Nat) : String := "uuid-" ++ toString n

/-- A `StateManager` together with the fresh-id counter feeding
`generateUUID`. -/
structure StateManagerModel where
  state : SidebarState
  nextUuid : Nat
deriving DecidableEq

/-- The spread `{ id, ...entry }` building the full `HistoryEntry`. -/
def mkHistoryEntry (id : String) (e : HistoryEntryData) : HistoryEntry :=
  { id := id, timestamp := e.timestamp, commandId := e.commandId, ai := e.ai,
    model := e.model, status := e.status, duration := e.duration,
    message := e.message }

/-- Embeds `StateManager.addToHistory`: generates an id, prepends the full
entry, keeps the most recent 50 (`[fullEntry, ...history].slice(0, 50)`),
and returns the new id (the `emit` it triggers carries no state change and
is modelled separately). -/
def addToHistory (sm : StateManagerModel) (entry : HistoryEntryData) :
    StateManagerModel × String :=
  let id := generateUUID sm.nextUuid
  let fullEntry := mkHistoryEntry id entry
  ({ state := { sm.state with history := (fullEntry :: sm.state.history).take 50 },
     nextUuid := sm.nextUuid + 1 }, id)

/-- A sequence of `addToHistory` calls, collecting the returned ids in call
order. -/
def addAllToHistory (sm : StateManagerModel) :
    List HistoryEntryData → StateManagerModel × List String
  | [] => (sm, [])
  | e :: es =>
    let step1 := addToHistory sm e
    let rest := addAllToHistory step1.1 es
    (rest.1, step1.2 :: rest.2)

/-- The entries of a call sequence paired with the ids the manager assigns
them, in call order, starting from counter value `u`. -/
def historyWithIds (u : Nat) : List HistoryEntryData → List HistoryEntry
  | [] => []
  | e :: es => mkHistoryEntry (generateUUID u) e :: historyWithIds (u + 1) es

/-- The ids `generateUUID u, …, generateUUID (u + n - 1)` that `n`
consecutive calls return. -/
def idsFrom (u : Nat) : Nat → List String
  | 0 => []
  | n + 1 => generateUUID u :: idsFrom (u + 1) n

/-- Behaviour of one subscribed listener on one delivered state: it either
settles normally, throws synchronously, or returns a promise that later
rejects with the given reason. -/
inductive ListenerOutcome where
  | settles
  | throws (msg : String)
  | rejects (msg : String)
deriving DecidableEq

/-- Final state of one promise in the `Promise.all` array. -/
inductive PromiseResult where
  | resolved
  | rejected (msg : String)
deriving DecidableEq

/-- A subscribed listener: a function of the delivered state. -/
def Listener := SidebarState → ListenerOutcome

/-- One arm of the `map` inside `StateManager.emit`:
`try { return Promise.resolve(listener(event)) } catch { log; return
Promise.resolve() }` — a synchronous throw is caught and replaced by a
resolved promise; a rejected returned promise passes through untouched. -/
def listenerStep (l : Listener) (ev : SidebarState) : PromiseResult :=
  match l ev with
  | .settles => .resolved
  | .throws _ => .resolved
  | .rejects m => .rejected m

/-- `Promise.all` over already-created promises: resolves when all resolve,
rejects with the first rejection (list order, matching microtask order for
promises settled at creation). -/
def promiseAll : List PromiseResult → Except String Unit
  | [] => .ok ()
  | .resolved :: rest => promiseAll rest
  | .rejected m :: _ => .error m

/-- Embeds `StateManager.emit`: maps every listener over the event (the
invocation list is the first component — every listener is called during
the synchronous `map`), then awaits `Promise.all`; the second component is
the settlement of the promise `emit` itself returns. -/
def emitModel (listeners : List Listener) (ev : SidebarState) :
    List PromiseResult × Except String Unit :=
  let settled := listeners.map fun l => listenerStep l ev
  (settled, promiseAll settled)

/-- Heap of JavaScript array objects, addressed by reference: the
`operations` and `history` fields of the stored `SidebarState` object hold
references into it.  This explicit-aliasing view is what the shallow
spread in `getState` is about. -/
structure ArrayHeap where
  opsArrays : Nat → List PendingOperation
  histArrays : Nat → List HistoryEntry

/-- A `SidebarState` object as it lives on the JavaScript heap: scalar
fields by value, the two lists by reference. -/
structure SidebarStateObj where
  selectedAI : Option String
  selectedModel : Option String
  selectedFile : Option String
  selectedOperation : Option String
  isLoading : Bool
  operationsRef : Nat
  historyRef : Nat
  uiMode : String
deriving DecidableEq

/-- Embeds `StateManager.getState`, i.e. `{ ...this.state }`: a fresh
object with every field copied — scalars by value, the `operations` and
`history` fields as the same array references. -/
def getState (st : SidebarStateObj) : SidebarStateObj :=
  { selectedAI := st.selectedAI, selectedModel := st.selectedModel,
    selectedFile := st.selectedFile, selectedOperation := st.selectedOperation,
    isLoading := st.isLoading, operationsRef := st.operationsRef,
    historyRef := st.historyRef, uiMode := st.uiMode }

/-- In-place `push` onto the array behind a reference. -/
def pushOperationAt (h : ArrayHeap) (ref : Nat) (op : PendingOperation) : ArrayHeap :=
  { h with opsArrays := fun r => if r = ref then h.opsArrays ref ++ [op] else h.opsArrays r }

/-- The operations list a state object sees through its reference. -/
def readOperations (h : ArrayHeap) (st : SidebarStateObj) : List PendingOperation :=
  h.opsArrays st.operationsRef

/-- The history list a state object sees through its reference. -/
def readHistory (h : ArrayHeap) (st : SidebarStateObj) : List HistoryEntry :=
  h.histArrays st.historyRef

/-- `readyState` of the underlying `ws` socket. -/
inductive SocketReadyState where
  | connectingS
  | openS
  | closedS
deriving DecidableEq

/-- The `WebSocketClient` transport (`src/cmate-front/src/localization.ts`,
second compilation unit): `ws` is the current underlying socket if one was
ever constructed, `openedCount` counts `new WebSocket(url)` constructions. -/
structure WsClient where
  ws : Option SocketReadyState
  reconnectDelay : Nat
  shouldReconnect : Bool
  connecting : Bool
  openedCount : Nat
deriving DecidableEq

/-- The backoff ceiling `maxDelay = 30000`. -/
def wsMaxDelay : Nat := 30000

/-- Field initializers of a freshly constructed client. -/
def initialWsClient : WsClient :=
  { ws := none, reconnectDelay := 1000, shouldReconnect := true,
    connecting := false, openedCount := 0 }

/-- Embeds the inner `tryConnect`: constructs a new `WebSocket`, replacing
`this.ws`. -/
def tryConnect (c : WsClient) : WsClient :=
  { c with ws := some .connectingS, openedCount := c.openedCount + 1 }

/-- Embeds `WebSocketClient.connect`: returns immediately only when
`this.connecting && this.ws && this.ws.readyState === OPEN`; otherwise
sets the flags and runs `tryConnect`. -/
def wsConnect (c : WsClient) : WsClient :=
  if c.connecting ∧ c.ws = some .openS then c
  else tryConnect { c with shouldReconnect := true, connecting := true }

/-- The socket's `open` handler: resets the backoff delay to 1000 and
clears `connecting`. -/
def wsOnOpen (c : WsClient) : WsClient :=
  { c with ws := some .openS, reconnectDelay := 1000, connecting := false }

/-- The socket's `close` handler: the socket is now closed; when
`shouldReconnect` holds it schedules the reconnect timer (the timer's
firing is a separate transition). -/
def wsOnClose (c : WsClient) : WsClient :=
  { c with ws := some .closedS }

/-- The reconnect timer firing: doubles the delay, capped at `maxDelay`,
then reconnects (`this.reconnectDelay = Math.min(this.reconnectDelay * 2,
this.maxDelay); tryConnect()`). -/
def wsReconnectTimerFires (c : WsClient) : WsClient :=
  tryConnect { c with reconnectDelay := min (2 * c.reconnectDelay) wsMaxDelay }

/-- Embeds `WebSocketClient.close`: suppresses future auto-reconnects and
closes the socket best-effort (the resulting `close` event is the
`wsOnClose` transition). -/
def wsClose (c : WsClient) : WsClient :=
  { c with shouldReconnect := false }

/-- The transitions of the transport: public calls (`connect`, `close`) and
socket/timer callbacks.  A timer can only have been scheduled from a close
event, so its firing is guarded by the socket being closed; the model keeps
no pending-timer bookkeeping and so over-approximates the reachable
states, which is sound for the invariants proved below. -/
inductive WsStep : WsClient → WsClient → Prop where
  | connectCall (c : WsClient) : WsStep c (wsConnect c)
  | openEvent (c : WsClient) (h : c.ws = some .connectingS) : WsStep c (wsOnOpen c)
  | closeEvent (c : WsClient) (h : c.ws.isSome) : WsStep c (wsOnClose c)
  | reconnectTimer (c : WsClient) (h : c.ws = some .closedS) :
      WsStep c (wsReconnectTimerFires c)
  | closeCall (c : WsClient) : WsStep c (wsClose c)

/-- States reachable from a freshly constructed client. -/
inductive WsReachable : WsClient → Prop where
  | init : WsReachable initialWsClient
  | step {c c' : WsClient} : WsReachable c → WsStep c c' → WsReachable c'

/-- The initializer of `StateManager.state` (all selections null, empty
lists, expanded UI). -/
def initialSidebarState : SidebarState :=
  { selectedAI := none, selectedModel := none, selectedFile := none,
    selectedOperation := none, isLoading := false, operations := [],
    history := [], uiMode := "expanded" }

/-- A freshly constructed `StateManager` with the id counter at zero. -/
def freshStateManager : StateManagerModel :=
  { state := initialSidebarState, nextUuid := 0 }

/-- A sample history entry used as concrete input. -/
def sampleHistoryEntry : HistoryEntryData :=
  { timestamp := 0, commandId := "file.create", ai := "claude",
    model := "claude-3-5-sonnet", status := "success", duration := 1,
    message := none }

/-- A concrete `file.create` request whose payload is `null` (a request
arriving over the wire carries its payload as parsed JSON, which may be
`null`). -/
def nullPayloadRequest : OperationRequest :=
  { id := "req-1", timestamp := 0, commandId := "file.create",
    category := "fileOps", selectedAI := "claude",
    selectedModel := "claude-3-5-sonnet", payload := .null,
    workspaceRoot := "ws", filePath := none }

/-- The scenario request of the spec's testable properties: a
`file.create` payload `{type: 'create', content: ''}` missing
`targetPath`. -/
def missingTargetRequest : OperationRequest :=
  { id := "req-2", timestamp := 0, commandId := "file.create",
    category := "fileOps", selectedAI := "claude",
    selectedModel := "claude-3-5-sonnet",
    payload := .obj [("type", .str "create"), ("content", .str "")],
    workspaceRoot := "ws", filePath := none }

/-- A request whose command id is registered nowhere. -/
def unknownCommandRequest : OperationRequest :=
  { id := "req-3", timestamp := 0, commandId := "no.such.command",
    category := "custom", selectedAI := "claude",
    selectedModel := "claude-3-5-sonnet", payload := .obj [],
    workspaceRoot := "ws", filePath := none }

/-- A heap whose arrays are all empty. -/
def emptyHeap : ArrayHeap :=
  { opsArrays := fun _ => [], histArrays := fun _ => [] }

/-- A stored `SidebarState` object whose lists live at references 0 and 1. -/
def storedStateObj : SidebarStateObj :=
  { selectedAI := none, selectedModel := none, selectedFile := none,
    selectedOperation := none, isLoading := false, operationsRef := 0,
    historyRef := 1, uiMode := "expanded" }

/-- A sample pending operation used as concrete input. -/
def sampleOp : PendingOperation :=
  { id := "op-1", commandId := "file.create", status := "queued",
    progress := 0, startTime := 0, endTime := none, error := none }

/-- Every state reachable by the transport keeps its backoff delay between
the 1000 ms floor and the 30000 ms ceiling. -/
theorem wsReachable_delay_bounds {c : WsClient} (h : WsReachable c) :
    1000 ≤ c.reconnectDelay ∧ c.reconnectDelay ≤ 30000 := by
  induction h with
  | init => exact ⟨le_rfl, by norm_num [initialWsClient]⟩
  | step hr hs ih =>
    cases hs with
    | connectCall =>
      rename_i c
      by_cases hc : c.connecting = true ∧ c.ws = some SocketReadyState.openS <;>
        simpa [wsConnect, hc, tryConnect] using ih
    | openEvent h => exact ⟨le_rfl, by norm_num [wsOnOpen]⟩
    | closeEvent h => simpa [wsOnClose] using ih
    | reconnectTimer h =>
      obtain ⟨ih1, ih2⟩ := ih
      simp only [wsReconnectTimerFires, tryConnect, wsMaxDelay]
      omega
    | closeCall => simpa [wsClose] using ih

/-- Claim C3: in every reachable state of the reconnection state machine the
backoff delay lies in [1000, 30000] ms; processing an unplanned disconnect
(the reconnect timer firing) sets it to `min (2 * delay) 30000` — it
doubles, capped at the ceiling — and a successful open resets it to the
1000 ms floor. -/
theorem wsBackoff_bounded_doubles_resets (c : WsClient) (h : WsReachable c) :
    c.reconnectDelay ≤ 30000 ∧ 1000 ≤ c.reconnectDelay ∧
    (wsReconnectTimerFires c).reconnectDelay = min (2 * c.reconnectDelay) 30000 ∧
    (wsOnOpen c).reconnectDelay = 1000 := by
  obtain ⟨h1, h2⟩ := wsReachable_delay_bounds h
  exact ⟨h2, h1, rfl, rfl⟩

/-- Witness for claim C3 at the freshly constructed (hence reachable)
client. -/
theorem wsBackoff_bounded_doubles_resets_witness :
    initialWsClient.reconnectDelay ≤ 30000 ∧
    1000 ≤ initialWsClient.reconnectDelay ∧
    (wsReconnectTimerFires initialWsClient).reconnectDelay =
      min (2 * initialWsClient.reconnectDelay) 30000 ∧
    (wsOnOpen initialWsClient).reconnectDelay = 1000 :=
  wsBackoff_bounded_doubles_resets initialWsClient WsReachable.init

/-- Claim C8 (divergence witness): after `connect()` and a successful open
the socket is `Open` and `connecting` has been cleared, so the guard
`this.connecting && this.ws && this.ws.readyState === OPEN` fails and a
second `connect()` call is NOT a no-op: it constructs a second underlying
`WebSocket`, replacing the open one — contradicting the specified
idempotence. -/
theorem wsConnect_while_open_opens_second_connection :
    WsReachable (wsOnOpen (wsConnect initialWsClient)) ∧
    (wsOnOpen (wsConnect initialWsClient)).ws = some SocketReadyState.openS ∧
    (wsOnOpen (wsConnect initialWsClient)).connecting = false ∧
    (wsConnect (wsOnOpen (wsConnect initialWsClient))).openedCount =
      (wsOnOpen (wsConnect initialWsClient)).openedCount + 1 ∧
    wsConnect (wsOnOpen (wsConnect initialWsClient)) ≠
      wsOnOpen (wsConnect initialWsClient) := by
  refine ⟨?_, rfl, rfl, by decide, by decide⟩
  exact WsReachable.step (WsReachable.step WsReachable.init (WsStep.connectCall _))
    (WsStep.openEvent _ rfl)

/-- A property read that is not the string "1.0" fails the strict version
test. -/
theorem optIsVersion10_eq_false {v : Option Json} (h : v ≠ some (.str "1.0")) :
    optIsVersion10 v = false := by
  cases v with
  | none => rfl
  | some j =>
    cases j with
    | str s =>
      have hs : s ≠ "1.0" := by rintro rfl; exact h rfl
      simp [optIsVersion10, hs]
    | null => rfl
    | bool b => rfl
    | num n => rfl
    | arr a => rfl
    | obj o => rfl

/-- A property read that is not a number fails the numeric test. -/
theorem optIsNumber_eq_false {v : Option Json} (h : ∀ n : Int, v ≠ some (.num n)) :
    optIsNumber v = false := by
  cases v with
  | none => rfl
  | some j => cases j with
    | num n => exact absurd rfl (h n)
    | null => rfl
    | bool b => rfl
    | str s => rfl
    | arr a => rfl
    | obj o => rfl

/-- Claim C6: `parseMessage` fails with the parse-failure kind on text that
is not syntactically valid JSON, and with the distinct validation-failure
kind (a different constructor, carrying the fixed invalid-format message)
on syntactically valid text violating the envelope invariants; any object
lacking `type`, `id` or `channel`, lacking a numeric `timestamp`, or whose
`version` is not the string "1.0" fails validation. -/
theorem parseMessage_failure_taxonomy (synMsg : String) (j : Json)
    (hbad : isValidMessage j = false) :
    parseMessage (.error synMsg) =
      .error (.parseError ("Failed to parse message: " ++ synMsg)) ∧
    parseMessage (.ok j) = .error (.validationError
      "Failed to parse message: Invalid message format: missing required fields or invalid version") ∧
    (∀ m1 m2, ProtocolFailure.parseError m1 ≠ ProtocolFailure.validationError m2) ∧
    (∀ msg : Json,
      (jsGetField msg "version" ≠ some (.str "1.0") ∨
       jsGetField msg "type" = none ∨
       jsGetField msg "id" = none ∨
       (∀ n : Int, jsGetField msg "timestamp" ≠ some (.num n)) ∨
       jsGetField msg "channel" = none) →
      isValidMessage msg = false) := by
  refine ⟨rfl, ?_, ?_, ?_⟩
  · simp [parseMessage, validateAndNormalize, hbad]
  · intro m1 m2 h
    exact ProtocolFailure.noConfusion h
  · intro msg hmiss
    rcases hmiss with h | h | h | h | h
    · simp [isValidMessage, optIsVersion10_eq_false h]
    · simp [isValidMessage, h, optTruthy]
    · simp [isValidMessage, h, optTruthy]
    · simp [isValidMessage, optIsNumber_eq_false h]
    · simp [isValidMessage, h, optTruthy]

/-- Witness for claim C6: a truncated text (a `SyntaxError` from
`JSON.parse`) yields the parse-failure kind, the empty object yields the
validation-failure kind. -/
theorem parseMessage_failure_taxonomy_witness :
    isValidMessage (Json.obj []) = false ∧
    parseMessage (.error "Unexpected end of JSON input") =
      .error (.parseError "Failed to parse message: Unexpected end of JSON input") ∧
    parseMessage (.ok (Json.obj [])) = .error (.validationError
      "Failed to parse message: Invalid message format: missing required fields or invalid version") :=
  ⟨rfl, (parseMessage_failure_taxonomy "Unexpected end of JSON input" (Json.obj []) rfl).1,
   (parseMessage_failure_taxonomy "Unexpected end of JSON input" (Json.obj []) rfl).2.1⟩

/-- Claim C2: for every well-formed envelope (version "1.0", non-empty
`type`, `id` and `channel`, numeric timestamp by construction),
`parseMessage` of `serializeMessage` succeeds with the serialized value
unchanged, and every field of that value equals the corresponding field of
the original envelope. -/
theorem parseMessage_serializeMessage_roundtrip (e : MessageEnvelope)
    (hv : e.version = "1.0") (ht : e.type ≠ "") (hi : e.id ≠ "") (hc : e.channel ≠ "") :
    parseMessage (.ok (serializeMessage e)) = .ok (serializeMessage e) ∧
    jsGetField (serializeMessage e) "version" = some (.str e.version) ∧
    jsGetField (serializeMessage e) "type" = some (.str e.type) ∧
    jsGetField (serializeMessage e) "id" = some (.str e.id) ∧
    jsGetField (serializeMessage e) "timestamp" = some (.num e.timestamp) ∧
    jsGetField (serializeMessage e) "channel" = some (.str e.channel) ∧
    jsGetField (serializeMessage e) "payload" = some e.payload ∧
    jsGetField (serializeMessage e) "requiresACK" = e.requiresACK.map Json.bool := by
  cases hACK : e.requiresACK <;>
    simp [parseMessage, validateAndNormalize, isValidMessage, serializeMessage,
      jsGetField, lookupField, jsTruthy, jsTypeofIsObject, optTruthy,
      optIsVersion10, optIsNumber, hACK, hv, ht, hi, hc]

/-- Witness for claim C2 at a concrete request envelope. -/
theorem parseMessage_serializeMessage_roundtrip_witness :
    (("1.0" : String) = "1.0" ∧ ("request" : String) ≠ "" ∧
     ("r-1" : String) ≠ "" ∧ ("command" : String) ≠ "") ∧
    parseMessage (.ok (serializeMessage
        ⟨"1.0", "request", "r-1", 1700000000000, "command", .null, some true⟩)) =
      .ok (serializeMessage
        ⟨"1.0", "request", "r-1", 1700000000000, "command", .null, some true⟩) :=
  ⟨⟨rfl, by decide, by decide, by decide⟩,
   (parseMessage_serializeMessage_roundtrip
     ⟨"1.0", "request", "r-1", 1700000000000, "command", Json.null, some true⟩
     rfl (by decide) (by decide) (by decide)).1⟩

/-- Claim C10: `parseMessage` accepts an envelope whose `type` is
"telemetry", which is none of the seven enumerated message kinds —
validation only checks that the field is present and truthy. -/
theorem parseMessage_accepts_unenumerated_type :
    parseMessage (.ok (.obj [("version", .str "1.0"), ("type", .str "telemetry"),
        ("id", .str "m-1"), ("timestamp", .num 5), ("channel", .str "misc"),
        ("payload", .null)])) =
      .ok (.obj [("version", .str "1.0"), ("type", .str "telemetry"),
        ("id", .str "m-1"), ("timestamp", .num 5), ("channel", .str "misc"),
        ("payload", .null)]) ∧
    "telemetry" ∉ messageTypes :=
  ⟨rfl, by decide⟩

/-- Claim C1 (divergence witness): with the registered `file.create`
command and a `null` payload, `CommandRegistry.execute` REJECTS — the
handler's `validate` throws a `TypeError` reading `payload.type`, and that
call sits outside the registry's try/catch — so not every failure is
converted into a `status=error` response. -/
theorem registryExecute_rejects_on_null_payload :
    registryExecute [("file.create", fileCreateDescriptor 0)] nullPayloadRequest 0 0 =
      .error "TypeError: Cannot read properties of null (reading type)" := rfl

/-- Claim C1 as amended: whenever the target handler's `validate` does not
itself throw on the request's payload, `execute` resolves with an
`OperationResponse`; an unknown command resolves with the
`COMMAND_NOT_FOUND` error response, a failed validation with the
`VALIDATION_ERROR` response, and a throwing or rejecting handler `execute`
with the `EXECUTION_ERROR` response — all three responses carrying
`status=error`. -/
theorem registryExecute_resolves_unless_validate_throws
    (cmds : List (String × CommandDescriptor)) (req : OperationRequest) (t0 t1 : Int)
    (hval : ∀ d, lookupCommand cmds req.commandId = some d →
      ∃ v, d.handler.validate req.payload = .ok v) :
    (∃ resp, registryExecute cmds req t0 t1 = .ok resp) ∧
    (lookupCommand cmds req.commandId = none →
      registryExecute cmds req t0 t1 = .ok (notFoundResponse cmds req t0)) ∧
    (∀ d v, lookupCommand cmds req.commandId = some d →
      d.handler.validate req.payload = .ok v → v.valid = false →
      registryExecute cmds req t0 t1 = .ok (validationFailedResponse req v.errors t0)) ∧
    (∀ d v e, lookupCommand cmds req.commandId = some d →
      d.handler.validate req.payload = .ok v → v.valid = true →
      d.handler.execute req = .error e →
      registryExecute cmds req t0 t1 = .ok (executionErrorResponse req e t1)) ∧
    (notFoundResponse cmds req t0).status = "error" ∧
    (validationFailedResponse req none t0).status = "error" ∧
    (executionErrorResponse req "" t1).status = "error" := by
  refine ⟨?_, ?_, ?_, ?_, rfl, rfl, rfl⟩
  · cases hlook : lookupCommand cmds req.commandId with
    | none => exact ⟨notFoundResponse cmds req t0, by simp [registryExecute, hlook]⟩
    | some d =>
      obtain ⟨v, hv⟩ := hval d hlook
      by_cases hvalid : v.valid = true
      · cases hex : d.handler.execute req with
        | ok r =>
          exact ⟨{ r with metadata := some (recordSet (r.metadata.getD [])
                     "duration" (.num (t1 - t0))) },
            by simp [registryExecute, hlook, dispatchCommand, hv, hvalid, hex]⟩
        | error e =>
          exact ⟨executionErrorResponse req e t1,
            by simp [registryExecute, hlook, dispatchCommand, hv, hvalid, hex]⟩
      · exact ⟨validationFailedResponse req v.errors t0,
          by simp [registryExecute, hlook, dispatchCommand, hv, hvalid]⟩
  · intro hlook
    simp [registryExecute, hlook]
  · intro d v hlook hv hvalid
    simp [registryExecute, hlook, dispatchCommand, hv, hvalid]
  · intro d v e hlook hv hvalid hex
    simp [registryExecute, hlook, dispatchCommand, hv, hvalid, hex]

/-- Witness for the amended claim C1: on an empty registry (so the
validate-does-not-throw hypothesis holds vacuously) `execute` resolves
with the `COMMAND_NOT_FOUND` response. -/
theorem registryExecute_resolves_unless_validate_throws_witness :
    (∀ d, lookupCommand [] unknownCommandRequest.commandId = some d →
      ∃ v, d.handler.validate unknownCommandRequest.payload = .ok v) ∧
    registryExecute [] unknownCommandRequest 0 0 =
      .ok (notFoundResponse [] unknownCommandRequest 0) :=
  ⟨fun d h => by simp [lookupCommand] at h,
   (registryExecute_resolves_unless_validate_throws [] unknownCommandRequest 0 0
     (fun d h => by simp [lookupCommand] at h)).2.1 rfl⟩

/-- Claim C7: on a registered command whose validator returns an invalid
result, `execute` resolves with the `VALIDATION_ERROR` response carrying
`status=error` and the validator's full error list in
`error.details.errors`, and the outcome is independent of the handler's
`execute` capability — the handler's `execute` is never invoked. -/
theorem registryExecute_validation_error_skips_execute
    (cmds : List (String × CommandDescriptor)) (req : OperationRequest) (t0 t1 : Int)
    (d : CommandDescriptor) (v : CommandValidation)
    (hd : lookupCommand cmds req.commandId = some d)
    (hv : d.handler.validate req.payload = .ok v)
    (hvalid : v.valid = false) :
    registryExecute cmds req t0 t1 = .ok (validationFailedResponse req v.errors t0) ∧
    (validationFailedResponse req v.errors t0).status = "error" ∧
    (validationFailedResponse req v.errors t0).error =
      some { code := "VALIDATION_ERROR", message := "Payload validation failed",
             details := some { errors := v.errors } } ∧
    (∀ ex : OperationRequest → Except String OperationResponse,
      dispatchCommand { d with handler := { d.handler with execute := ex } } req t0 t1 =
        dispatchCommand d req t0 t1) := by
  refine ⟨?_, rfl, rfl, ?_⟩
  · simp [registryExecute, hd, dispatchCommand, hv, hvalid]
  · intro ex
    simp [dispatchCommand, hv, hvalid]

/-- Witness for claim C7: the spec's scenario — `file.create` with payload
`{type: 'create', content: ''}` missing `targetPath` — yields the
validation-error response with the target-path-required message. -/
theorem registryExecute_validation_error_witness :
    lookupCommand [("file.create", fileCreateDescriptor 0)]
        missingTargetRequest.commandId = some (fileCreateDescriptor 0) ∧
    (fileCreateDescriptor 0).handler.validate missingTargetRequest.payload =
      .ok { valid := false, errors := some ["Target path is required"] } ∧
    registryExecute [("file.create", fileCreateDescriptor 0)] missingTargetRequest 0 0 =
      .ok (validationFailedResponse missingTargetRequest
        (some ["Target path is required"]) 0) :=
  ⟨rfl, rfl,
   (registryExecute_validation_error_skips_execute
     [("file.create", fileCreateDescriptor 0)] missingTargetRequest 0 0
     (fileCreateDescriptor 0) { valid := false, errors := some ["Target path is required"] }
     rfl rfl rfl).1⟩

/-- Taking `n` of an append whose right part is already capped at `n`
equals taking `n` of the plain append. -/
theorem take_append_take {α : Type} (a b : List α) (n : Nat) :
    List.take n (a ++ List.take n b) = List.take n (a ++ b) := by
  simp [List.take_append_eq_append_take, List.take_take,
    Nat.min_eq_left (Nat.sub_le n a.length)]

/-- The id-assignment pairing preserves length. -/
theorem historyWithIds_length (es : List HistoryEntryData) :
    ∀ u, (historyWithIds u es).length = es.length := by
  induction es with
  | nil => intro u; rfl
  | cons e es ih => intro u; simp [historyWithIds, ih]

/-- Running a call sequence from a history within the cap leaves the most
recent 50 of the newly added entries (newest first) followed by the old
ones. -/
theorem addAllToHistory_history (es : List HistoryEntryData) :
    ∀ sm : StateManagerModel, sm.state.history.length ≤ 50 →
      (addAllToHistory sm es).1.state.history =
        List.take 50 ((historyWithIds sm.nextUuid es).reverse ++ sm.state.history) := by
  induction es with
  | nil =>
    intro sm h
    simp [addAllToHistory, historyWithIds, List.take_of_length_le h]
  | cons e es ih =>
    intro sm h
    have h1 : (addToHistory sm e).1.state.history.length ≤ 50 := by
      simp [addToHistory]
    have step : (addAllToHistory sm (e :: es)).1 =
        (addAllToHistory (addToHistory sm e).1 es).1 := rfl
    rw [step, ih _ h1]
    simp only [addToHistory, historyWithIds, List.reverse_cons, List.append_assoc,
      List.singleton_append]
    exact take_append_take _ _ 50

/-- A call sequence returns the consecutively generated ids in call
order. -/
theorem addAllToHistory_ids (es : List HistoryEntryData) :
    ∀ sm : StateManagerModel,
      (addAllToHistory sm es).2 = idsFrom sm.nextUuid es.length := by
  induction es with
  | nil => intro sm; rfl
  | cons e es ih =>
    intro sm
    simp [addAllToHistory, idsFrom, addToHistory, ih]

/-- Claim C9: 51 `addToHistory` calls on an initially empty history leave
exactly the 50 most recent entries, most-recently-added first (the take-50
of the reversed call order — the 51st insertion evicted the first), the
calls return the consecutively generated fresh ids, and every call returns
exactly the id of the entry it prepended (the new head). -/
theorem addToHistory_caps_at_50 (sm : StateManagerModel) (es : List HistoryEntryData)
    (h0 : sm.state.history = []) (h51 : es.length = 51) :
    (addAllToHistory sm es).1.state.history =
      ((historyWithIds sm.nextUuid es).reverse).take 50 ∧
    (addAllToHistory sm es).1.state.history.length = 50 ∧
    (addAllToHistory sm es).2 = idsFrom sm.nextUuid 51 ∧
    (∀ (sm' : StateManagerModel) (e : HistoryEntryData),
      (addToHistory sm' e).1.state.history.head? =
        some (mkHistoryEntry (addToHistory sm' e).2 e)) := by
  have hlen : sm.state.history.length ≤ 50 := by simp [h0]
  have hh := addAllToHistory_history es sm hlen
  rw [h0] at hh
  simp only [List.append_nil] at hh
  refine ⟨hh, ?_, by rw [addAllToHistory_ids es sm, h51], ?_⟩
  · rw [hh]
    simp [List.length_take, historyWithIds_length, h51]
  · intro sm' e
    simp [addToHistory, List.take_succ_cons]

/-- Witness for claim C9: 51 concrete insertions on a fresh manager leave
exactly 50 entries. -/
theorem addToHistory_caps_at_50_witness :
    freshStateManager.state.history = [] ∧
    (List.replicate 51 sampleHistoryEntry).length = 51 ∧
    (addAllToHistory freshStateManager
      (List.replicate 51 sampleHistoryEntry)).1.state.history.length = 50 :=
  ⟨rfl, by simp,
   (addToHistory_caps_at_50 freshStateManager (List.replicate 51 sampleHistoryEntry)
     rfl (by simp)).2.1⟩

/-- Claim C5 (divergence witness): with a first listener whose returned
promise rejects and a second that settles, both listeners are invoked
(both settlements appear), yet `emit` itself rejects with the listener's
reason — `Promise.all` propagates an asynchronous rejection that the
`try`/`catch` around the synchronous call does not see. -/
theorem emit_rejects_on_async_listener_rejection :
    (emitModel [fun _ => .rejects "boom", fun _ => .settles] initialSidebarState).1 =
      [.rejected "boom", .resolved] ∧
    (emitModel [fun _ => .rejects "boom", fun _ => .settles] initialSidebarState).2 =
      .error "boom" ∧
    Except.error "boom" ≠ (Except.ok () : Except String Unit) :=
  ⟨rfl, rfl, by simp⟩

/-- When no listener returns a rejecting promise, awaiting all settlements
succeeds. -/
theorem promiseAll_ok_of_no_rejection (ev : SidebarState) :
    ∀ listeners : List Listener,
      (∀ l ∈ listeners, ∀ m, l ev ≠ .rejects m) →
      promiseAll (listeners.map fun l => listenerStep l ev) = .ok () := by
  intro listeners
  induction listeners with
  | nil => intro _; rfl
  | cons l ls ih =>
    intro hno
    have hl := hno l (by simp)
    have hrest : ∀ l ∈ ls, ∀ m, l ev ≠ .rejects m :=
      fun x hx m => hno x (by simp [hx]) m
    cases hcase : l ev with
    | rejects m => exact absurd hcase (hl m)
    | settles => simpa [listenerStep, hcase, promiseAll] using ih hrest
    | throws m => simpa [listenerStep, hcase, promiseAll] using ih hrest

/-- Claim C5 as amended: `emit` always invokes every listener with the
emitted state (one settlement per listener, in order), and isolates
synchronous throws — when no listener returns a rejecting promise, `emit`
itself resolves even if listeners throw synchronously; an asynchronous
rejection, however, propagates to `emit`'s own promise. -/
theorem emit_invokes_all_isolates_sync_throws
    (listeners : List Listener) (ev : SidebarState)
    (hno : ∀ l ∈ listeners, ∀ m, l ev ≠ .rejects m) :
    (emitModel listeners ev).1 = listeners.map (fun l => listenerStep l ev) ∧
    (emitModel listeners ev).1.length = listeners.length ∧
    (emitModel listeners ev).2 = .ok () := by
  refine ⟨rfl, by simp [emitModel], ?_⟩
  exact promiseAll_ok_of_no_rejection ev listeners hno

/-- Witness for the amended claim C5: a synchronously throwing listener
next to a well-behaved one — both are invoked and `emit` resolves. -/
theorem emit_invokes_all_isolates_sync_throws_witness :
    (∀ l ∈ ([fun _ => .throws "sync boom", fun _ => .settles] : List Listener),
      ∀ m, l initialSidebarState ≠ .rejects m) ∧
    (emitModel [fun _ => .throws "sync boom", fun _ => .settles]
      initialSidebarState).2 = .ok () ∧
    (emitModel [fun _ => .throws "sync boom", fun _ => .settles]
      initialSidebarState).1.length = 2 := by
  have hno : ∀ l ∈ ([fun _ => .throws "sync boom", fun _ => .settles] : List Listener),
      ∀ m, l initialSidebarState ≠ .rejects m := by
    intro l hl m
    simp only [List.mem_cons, List.not_mem_nil, or_false] at hl
    rcases hl with rfl | rfl <;> simp
  exact ⟨hno,
    (emit_invokes_all_isolates_sync_throws _ initialSidebarState hno).2.2,
    (emit_invokes_all_isolates_sync_throws _ initialSidebarState hno).2.1⟩

/-- Claim C4 (divergence witness): pushing onto the operations array
through the value `getState` returned changes the operations the stored
state reads — the shallow spread shares the nested array, so mutating the
returned value does NOT leave the stored state unchanged. -/
theorem getState_nested_mutation_counterexample :
    readOperations
        (pushOperationAt emptyHeap (getState storedStateObj).operationsRef sampleOp)
        storedStateObj ≠
      readOperations emptyHeap storedStateObj ∧
    readOperations
        (pushOperationAt emptyHeap (getState storedStateObj).operationsRef sampleOp)
        storedStateObj = [sampleOp] ∧
    readOperations emptyHeap storedStateObj = [] := by
  refine ⟨?_, rfl, rfl⟩
  intro h
  simp [readOperations, pushOperationAt, emptyHeap, getState, storedStateObj] at h

/-- Claim C4 as amended: `getState` returns a shallow copy — the copy
holds the same `operations` and `history` array references as the stored
state, so an in-place mutation through the copy is a mutation of the array
the stored state reads. -/
theorem getState_shallow_copy_shares_lists (h : ArrayHeap) (st : SidebarStateObj)
    (op : PendingOperation) :
    (getState st).operationsRef = st.operationsRef ∧
    (getState st).historyRef = st.historyRef ∧
    readOperations (pushOperationAt h (getState st).operationsRef op) st =
      readOperations h st ++ [op] :=
  ⟨rfl, rfl, by simp [getState, readOperations, pushOperationAt]⟩

end CodeMateSpec
